import Mathlib

/-
Verification of the event-custodian library (src/index.js, the
mount/unmount variant, which the specification names as the variant it
describes). The embedding models the combined state of one EventEmitter
and one Custodian instance, the native Node subscription operations, the
override wrappers installed by mount, the dispatch handler closure, and
the error channel (this.events) with Node emit semantics for the error
signal (emitting error with zero listeners throws the error).
-/

namespace EventCustodian

/-- Identity of a listener function object. User callbacks are numbered;
dispatch is the custodian handler closure (this.handler); onceWrap is a
fresh self-removing onceHandler closure created by the overridden once and
prependOnceListener code paths (index.js lines 126 to 146), tagged with a
fresh-closure counter so distinct closures wrapping the same callback stay
distinct objects, as in JS. -/
inductive Cb : Type where
  | user : Nat → Cb
  | dispatch : Cb
  | onceWrap : Cb → Nat → Cb
deriving DecidableEq

/-- Listener registered on the custodian error channel (this.events) for
the error signal: a numbered user handler, or the console.error fallback
installed by the dispatch handler (index.js line 45). -/
inductive ErrL : Type where
  | user : Nat → ErrL
  | fallback : ErrL
deriving DecidableEq

/-- Combined state of the emitter and the custodian instance. native is
the emitter internal listener store, one ordered list per event type;
isProcess records whether the emitter is the process object; type is the
managed event type; handlers is this.handlers; mounted records that
this.mounted exists (the save-set of original methods); overridden records
whether the eight subscription methods on the emitter currently hold the
override wrappers (mount installs all eight together after its two native
calls, unmount restores all eight together before its native calls, and no
other call can interleave, so one flag tracks all eight); errListeners is
the listener list of this.events for the error signal; fresh numbers the
anonymous closures created so far. -/
structure Sys : Type where
  native : String → List Cb
  isProcess : Bool
  type : String
  handlers : List Cb
  mounted : Bool
  overridden : Bool
  errListeners : List ErrL
  fresh : Nat

/-- Node emitter.on and emitter.addListener: append to the listener list
of type t. A third options argument passed to the native method is
ignored by Node. -/
def nativeAdd (s : Sys) (t : String) (c : Cb) : Sys :=
  { s with native := fun u => if u = t then s.native u ++ [c] else s.native u }

/-- Node emitter.prependListener: insert at the head of the list of t. -/
def nativePrepend (s : Sys) (t : String) (c : Cb) : Sys :=
  { s with native := fun u => if u = t then c :: s.native u else s.native u }

/-- Node emitter.removeAllListeners for type t. -/
def nativeRemoveAll (s : Sys) (t : String) : Sys :=
  { s with native := fun u => if u = t then [] else s.native u }

/-- Node emitter.removeListener removes the most recently added matching
occurrence: it scans the listener array from the end. -/
def removeLastOccurrence (l : List Cb) (c : Cb) : List Cb :=
  (l.reverse.erase c).reverse

/-- Node emitter.removeListener for type t and listener c. -/
def nativeRemoveListener (s : Sys) (t : String) (c : Cb) : Sys :=
  { s with native := fun u =>
      if u = t then removeLastOccurrence (s.native u) c else s.native u }

/-- Node emitter.once: appends a self-removing wrapper around c. -/
def nativeOnce (s : Sys) (t : String) (c : Cb) : Sys :=
  let s1 := nativeAdd s t (Cb.onceWrap c s.fresh)
  { s1 with fresh := s.fresh + 1 }

/-- JS Array.prototype.indexOf: position of the first identical element,
minus one when the element is absent. -/
def jsIndexOf (l : List Cb) (c : Cb) : Int :=
  match l.findIdx? (fun x => x == c) with
  | some i => (i : Int)
  | none => -1

/-- Removal part of JS Array.prototype.splice(start, deleteCount): a
negative start counts from the end of the array and is clamped at zero. -/
def jsSpliceRemove (l : List Cb) (start : Int) (deleteCount : Nat) : List Cb :=
  let len : Int := (l.length : Int)
  let actual : Nat := (if start < 0 then max (len + start) 0 else min start len).toNat
  l.take actual ++ l.drop (actual + deleteCount)

/-- Managed branch of the once override (index.js lines 137 to 146):
creates a self-removing onceHandler closure and pushes it onto
this.handlers. -/
def implOnce (s : Sys) (c : Cb) : Sys :=
  { s with handlers := s.handlers ++ [Cb.onceWrap c s.fresh], fresh := s.fresh + 1 }

/-- Call of emitter.once with the managed type: runs the override body
when the methods are the override wrappers, else the native once. -/
def callOnce (s : Sys) (c : Cb) : Sys :=
  if s.overridden then implOnce s c else nativeOnce s s.type c

/-- Managed branch of the addListener and on override (index.js lines 106
to 114): with a truthy once option it calls this.emitter.once, which is
itself the override while mounted; otherwise it pushes onto
this.handlers. -/
def implOn (s : Sys) (c : Cb) (once : Bool) : Sys :=
  if once then callOnce s c else { s with handlers := s.handlers ++ [c] }

/-- Call of emitter.on or emitter.addListener with the managed type. The
native method ignores the options argument. -/
def callOn (s : Sys) (c : Cb) (once : Bool) : Sys :=
  if s.overridden then implOn s c once else nativeAdd s s.type c

/-- Two argument call of emitter.prependListener with the managed type, as
performed inside the prependOnceListener override (index.js line 133): no
options object is passed, so the once branch of the prependListener
override cannot be taken. -/
def callPrependListener2 (s : Sys) (c : Cb) : Sys :=
  if s.overridden then { s with handlers := c :: s.handlers }
  else nativePrepend s s.type c

/-- Managed branch of the prependOnceListener override (index.js lines 126
to 135): creates a self-removing onceHandler closure and registers it via
this.emitter.prependListener, which is itself the override while
mounted. -/
def implPrependOnce (s : Sys) (c : Cb) : Sys :=
  callPrependListener2 { s with fresh := s.fresh + 1 } (Cb.onceWrap c s.fresh)

/-- Call of emitter.prependOnceListener with the managed type. The native
method prepends a self-removing wrapper. -/
def callPrependOnce (s : Sys) (c : Cb) : Sys :=
  if s.overridden then implPrependOnce s c
  else
    let s1 := nativePrepend s s.type (Cb.onceWrap c s.fresh)
    { s1 with fresh := s.fresh + 1 }

/-- Managed branch of the prependListener override (index.js lines 116 to
124): with a truthy once option it calls this.emitter.prependOnceListener,
which is itself the override while mounted; otherwise it unshifts onto
this.handlers. -/
def implPrepend (s : Sys) (c : Cb) (once : Bool) : Sys :=
  if once then callPrependOnce s c else { s with handlers := c :: s.handlers }

/-- Call of emitter.prependListener with the managed type. -/
def callPrependListener (s : Sys) (c : Cb) (once : Bool) : Sys :=
  if s.overridden then implPrepend s c once else nativePrepend s s.type c

/-- Managed branch of the removeListener and off override (index.js lines
148 to 154): const index = this.handlers.indexOf(handler);
this.handlers.splice(index, 1). When the handler is absent, indexOf
yields minus one and splice(-1, 1) removes the last element. -/
def implRemove (s : Sys) (c : Cb) : Sys :=
  { s with handlers := jsSpliceRemove s.handlers (jsIndexOf s.handlers c) 1 }

/-- Call of emitter.removeListener or emitter.off with the managed type. -/
def callRemoveListener (s : Sys) (c : Cb) : Sys :=
  if s.overridden then implRemove s c else nativeRemoveListener s s.type c

/-- Call of emitter.removeAllListeners with the managed type. The managed
branch (index.js lines 156 to 161) empties this.handlers. -/
def callRemoveAll (s : Sys) : Sys :=
  if s.overridden then { s with handlers := [] } else nativeRemoveAll s s.type

/-- A subscription API call targeting the managed type, through whichever
method currently sits on the emitter. The Bool argument of on,
addListener and prependListener is the truthiness of the once option. -/
inductive Op : Type where
  | on : Cb → Bool → Op
  | addListener : Cb → Bool → Op
  | prependListener : Cb → Bool → Op
  | once : Cb → Op
  | prependOnceListener : Cb → Op
  | removeListener : Cb → Op
  | off : Cb → Op
  | removeAllListeners : Op
deriving DecidableEq

/-- Effect of one subscription call targeting the managed type. -/
def applyOp (s : Sys) : Op → Sys
  | Op.on c o => callOn s c o
  | Op.addListener c o => callOn s c o
  | Op.prependListener c o => callPrependListener s c o
  | Op.once c => callOnce s c
  | Op.prependOnceListener c => callPrependOnce s c
  | Op.removeListener c => callRemoveListener s c
  | Op.off c => callRemoveListener s c
  | Op.removeAllListeners => callRemoveAll s

/-- The constructor (index.js lines 18 to 54): stores the emitter, the
type, a fresh internal events emitter and the handler closure. The
emitter itself is not touched: no listener list changes and no method is
replaced. this.handlers does not exist yet; it is modelled as the empty
list until mount captures the native listeners. -/
def construct (native0 : String → List Cb) (isP : Bool) (ty : String) : Sys :=
  { native := native0, isProcess := isP, type := ty, handlers := [],
    mounted := false, overridden := false, errListeners := [], fresh := 0 }

/-- mount (index.js lines 90 to 164): guarded by this.mounted; captures
the native listener list of the managed type into this.handlers, creates
the save-set, removes all native listeners of the type and registers the
dispatch handler, both through the emitter methods, which are still the
native ones at that point; then replaces all eight subscription
methods. -/
def mount (s : Sys) : Sys :=
  if s.mounted then s
  else
    let s1 := { s with handlers := s.native s.type, mounted := true }
    let s2 := callRemoveAll s1
    let s3 := callOn s2 Cb.dispatch false
    { s3 with overridden := true }

/-- unmount (index.js lines 60 to 84): guarded by this.mounted; restores
every saved method and deletes the save-set, then removes the dispatch
handler and re-registers every callback of this.handlers, both through
the emitter methods, which are the restored native ones at that point. -/
def unmount (s : Sys) : Sys :=
  if s.mounted then
    let s1 := { s with overridden := false, mounted := false }
    let s2 := callRemoveListener s1 Cb.dispatch
    s2.handlers.foldl (fun acc c => callOn acc c false) s2
  else s

/-- custodian.on for the error signal (index.js lines 194 to 198). -/
def custodianOn (s : Sys) (l : ErrL) : Sys :=
  { s with errListeners := s.errListeners ++ [l] }

/-- custodian.off for the error signal (index.js lines 206 to 213): with a
handler, events.removeListener removes the most recently added matching
occurrence; without one, events.removeAllListeners empties the list. -/
def custodianOff (s : Sys) (l : Option ErrL) : Sys :=
  match l with
  | some h => { s with errListeners := (s.errListeners.reverse.erase h).reverse }
  | none => { s with errListeners := [] }

/-- listStartsWith pat l is true when pat is a leading segment of l. -/
def listStartsWith : List Char → List Char → Bool
  | [], _ => true
  | _ :: _, [] => false
  | p :: ps, x :: xs => if p = x then listStartsWith ps xs else false

/-- listContainsSub pat l is true when pat occurs contiguously in l. -/
def listContainsSub (pat : List Char) : List Char → Bool
  | [] => listStartsWith pat []
  | x :: xs => listStartsWith pat (x :: xs) || listContainsSub pat xs

/-- The regex test of index.js line 42, the pattern unhandledRejection
with the ignore-case flag: a case insensitive substring match on the
managed type. -/
def testUnhandledRejection (t : String) : Bool :=
  listContainsSub ("unhandledRejection".data.map Char.toLower)
    (t.data.map Char.toLower)

/-- Execution context a function is applied with. -/
inductive Ctx : Type where
  | emitter : Ctx
  | custodian : Ctx
deriving DecidableEq

/-- Record of one function application during a dispatch: the function
object, the context it was applied with, and the argument list it
received. Arguments are modelled as numbers. -/
structure Call : Type where
  cb : Cb
  ctx : Ctx
  args : List Nat
deriving DecidableEq

/-- Synchronous behavior of a user callback when invoked: the
subscription calls targeting the managed type it performs on the mounted
emitter, then an optional thrown error. Errors are modelled as
numbers. -/
structure UserBeh : Type where
  acts : List Op
  throws : Option Nat
deriving DecidableEq

/-- Sequence of subscription calls performed by a callback body. -/
def runOps (s : Sys) (ops : List Op) : Sys :=
  ops.foldl applyOp s

/-- Invocation of one listener function, returning the new state, the
applications performed (the function itself first) and the error the
application threw, if any. A user callback performs its synchronous
subscription calls and then optionally throws. A onceWrap closure
(index.js lines 129 to 132 and 140 to 143) first removes itself via
this.emitter.removeListener, then applies the wrapped handler with the
custodian as context (the arrow closure captures this from the override
body, where this is the custodian); an error thrown by the wrapped
handler propagates out of the wrapper, which has no try block. The
dispatch closure never occurs inside this.handlers in reachable states;
it is modelled as inert. -/
def runCb (beh : Nat → UserBeh) (args : List Nat) :
    Cb → Ctx → Sys → Sys × List Call × Option Nat
  | Cb.user n, ctx, s =>
      (runOps s (beh n).acts, [Call.mk (Cb.user n) ctx args], (beh n).throws)
  | Cb.onceWrap c k, ctx, s =>
      let s1 := callRemoveListener s (Cb.onceWrap c k)
      let r := runCb beh args c Ctx.custodian s1
      (r.1, Call.mk (Cb.onceWrap c k) ctx args :: r.2.1, r.2.2)
  | Cb.dispatch, ctx, s =>
      (s, [Call.mk Cb.dispatch ctx args], none)

/-- The forEach over the point in time copy of this.handlers (index.js
lines 27 to 36): each entry is applied with the emitter as context and
the full argument list, each inside its own try block, and the caught
errors are collected in callback order. -/
def runHandlers (beh : Nat → UserBeh) (args : List Nat) :
    List Cb → Sys → Sys × List Call × List Nat
  | [], s => (s, [], [])
  | c :: rest, s =>
      let r1 := runCb beh args c Ctx.emitter s
      let r2 := runHandlers beh args rest r1.1
      (r2.1, r1.2.1 ++ r2.2.1,
        match r1.2.2 with
        | some e => e :: r2.2.2
        | none => r2.2.2)

/-- Emission loop over the collected errors (index.js lines 49 to 51),
with Node semantics for the error signal: events.emit with zero listeners
registered for error throws the error out of the emit call, which aborts
the remaining iterations; with listeners, each emission is delivered.
Returns the errors delivered per successful emission in order, the
errors received by the console fallback, and the error thrown out of the
loop, if any. -/
def emitErrors (ls : List ErrL) : List Nat → List Nat × List Nat × Option Nat
  | [] => ([], [], none)
  | e :: rest =>
      if ls.isEmpty then ([], [], some e)
      else
        let r := emitErrors ls rest
        (e :: r.1, (if ls.contains ErrL.fallback then e :: r.2.1 else r.2.1), r.2.2)

/-- Result of one invocation of the dispatch handler. -/
structure DispatchResult : Type where
  sys : Sys
  calls : List Call
  delivered : List Nat
  printed : List Nat
  thrown : Option Nat

/-- The dispatch handler closure this.handler (index.js lines 22 to 53):
iterate a copy of this.handlers collecting errors; when errors exist,
install the console fallback on the error channel when the emitter is
process, the type matches the unhandledRejection regex and no error
listener is registered at that moment, and finally emit each collected
error in order on this.events. -/
def dispatchEmit (beh : Nat → UserBeh) (s : Sys) (args : List Nat) : DispatchResult :=
  let r := runHandlers beh args s.handlers s
  if r.2.2.isEmpty then DispatchResult.mk r.1 r.2.1 [] [] none
  else
    let s2 :=
      if r.1.isProcess && testUnhandledRejection r.1.type && r.1.errListeners.isEmpty
      then { r.1 with errListeners := r.1.errListeners ++ [ErrL.fallback] }
      else r.1
    let er := emitErrors s2.errListeners r.2.2
    DispatchResult.mk s2 r.2.1 er.1 er.2.1 er.2.2

/-- Error a managed entry lets escape when applied: a user callback
throws per its behavior; a wrapper propagates the error of the wrapped
handler; the dispatch closure is inert. -/
def throwsOf (beh : Nat → UserBeh) : Cb → Option Nat
  | Cb.user n => (beh n).throws
  | Cb.onceWrap c _ => throwsOf beh c
  | Cb.dispatch => none

/-- Positional JS argument of a subscription method: a type string, a
listener function or an options object. -/
inductive JsVal : Type where
  | str : String → JsVal
  | fn : Cb → JsVal
  | opts : Bool → JsVal
deriving DecidableEq

/-- Arguments handed to the saved native method by the delegation branch
of the override wrapper (index.js line 177,
this.mounted[alias].call(this.emitter, this.type, ...args)): the managed
type is placed first, followed by the entire original argument list, so
the caller type string lands in the listener position of the native
method. -/
def delegatedNativeArgs (managedType : String) (args : List JsVal) : List JsVal :=
  JsVal.str managedType :: args

/-- Destination of a call through an override wrapper. -/
inductive Routed : Type where
  | toImpl : List JsVal → Routed
  | toNative : List JsVal → Routed
deriving DecidableEq

/-- Routing performed by the override wrapper (index.js lines 174 to 181):
a call whose first argument is the managed type runs the override body
with the original arguments; any other call is delegated to the saved
native method with delegatedNativeArgs. -/
def overrideWrapperRoute (managedType : String) (args : List JsVal) : Routed :=
  if args.head? = some (JsVal.str managedType) then Routed.toImpl args
  else Routed.toNative (delegatedNativeArgs managedType args)

/- Helper lemmas. -/

/-- One subscription call never touches the error channel, the emitter
identity, the managed type or the method replacement state. -/
theorem applyOp_fields (s : Sys) (op : Op) :
    (applyOp s op).errListeners = s.errListeners ∧
    (applyOp s op).isProcess = s.isProcess ∧
    (applyOp s op).type = s.type ∧
    (applyOp s op).overridden = s.overridden := by
  cases op <;>
    simp only [applyOp, callOn, implOn, callOnce, implOnce, nativeOnce, nativeAdd,
      callPrependListener, implPrepend, callPrependOnce, implPrependOnce,
      callPrependListener2, nativePrepend, callRemoveListener, implRemove,
      nativeRemoveListener, callRemoveAll, nativeRemoveAll] <;>
    split_ifs <;> simp_all

/-- While the override wrappers are installed, no subscription call
targeting the managed type changes any native listener list. -/
theorem applyOp_native_of_overridden (s : Sys) (op : Op)
    (h : s.overridden = true) : (applyOp s op).native = s.native := by
  cases op <;>
    simp only [applyOp, callOn, implOn, callOnce, implOnce, nativeOnce, nativeAdd,
      callPrependListener, implPrepend, callPrependOnce, implPrependOnce,
      callPrependListener2, nativePrepend, callRemoveListener, implRemove,
      nativeRemoveListener, callRemoveAll, nativeRemoveAll, h] <;>
    split_ifs <;> simp_all

/-- Field preservation extends to any sequence of subscription calls. -/
theorem runOps_fields (ops : List Op) : ∀ s : Sys,
    (runOps s ops).errListeners = s.errListeners ∧
    (runOps s ops).isProcess = s.isProcess ∧
    (runOps s ops).type = s.type ∧
    (runOps s ops).overridden = s.overridden := by
  induction ops with
  | nil => exact fun s => ⟨rfl, rfl, rfl, rfl⟩
  | cons op rest ih =>
      intro s
      have h1 := applyOp_fields s op
      have h2 := ih (applyOp s op)
      exact ⟨h2.1.trans h1.1, h2.2.1.trans h1.2.1,
        h2.2.2.1.trans h1.2.2.1, h2.2.2.2.trans h1.2.2.2⟩

/-- Invoking one listener preserves the error channel, the emitter
identity, the managed type and the method replacement state. -/
theorem runCb_fields (beh : Nat → UserBeh) (args : List Nat) :
    ∀ (c : Cb) (ctx : Ctx) (s : Sys),
    ((runCb beh args c ctx s).1.errListeners = s.errListeners ∧
     (runCb beh args c ctx s).1.isProcess = s.isProcess ∧
     (runCb beh args c ctx s).1.type = s.type ∧
     (runCb beh args c ctx s).1.overridden = s.overridden) := by
  intro c
  induction c with
  | user n => exact fun ctx s => runOps_fields (beh n).acts s
  | dispatch => exact fun ctx s => ⟨rfl, rfl, rfl, rfl⟩
  | onceWrap c k ih =>
      intro ctx s
      have h1 : callRemoveListener s (Cb.onceWrap c k)
          = applyOp s (Op.removeListener (Cb.onceWrap c k)) := rfl
      have h2 := applyOp_fields s (Op.removeListener (Cb.onceWrap c k))
      have h3 := ih Ctx.custodian (callRemoveListener s (Cb.onceWrap c k))
      rw [h1] at h3
      exact ⟨h3.1.trans h2.1, h3.2.1.trans h2.2.1,
        h3.2.2.1.trans h2.2.2.1, h3.2.2.2.trans h2.2.2.2⟩

/-- The whole dispatch loop preserves the error channel, the emitter
identity, the managed type and the method replacement state. -/
theorem runHandlers_fields (beh : Nat → UserBeh) (args : List Nat) :
    ∀ (l : List Cb) (s : Sys),
    ((runHandlers beh args l s).1.errListeners = s.errListeners ∧
     (runHandlers beh args l s).1.isProcess = s.isProcess ∧
     (runHandlers beh args l s).1.type = s.type ∧
     (runHandlers beh args l s).1.overridden = s.overridden) := by
  intro l
  induction l with
  | nil => exact fun s => ⟨rfl, rfl, rfl, rfl⟩
  | cons c rest ih =>
      intro s
      have h1 := runCb_fields beh args c Ctx.emitter s
      have h2 := ih (runCb beh args c Ctx.emitter s).1
      exact ⟨h2.1.trans h1.1, h2.2.1.trans h1.2.1,
        h2.2.2.1.trans h1.2.2.1, h2.2.2.2.trans h1.2.2.2⟩

/-- The error let escape by one listener application is the structural
error of that entry, independent of the state. -/
theorem runCb_throws (beh : Nat → UserBeh) (args : List Nat) :
    ∀ (c : Cb) (ctx : Ctx) (s : Sys),
    (runCb beh args c ctx s).2.2 = throwsOf beh c := by
  intro c
  induction c with
  | user n => exact fun ctx s => rfl
  | dispatch => exact fun ctx s => rfl
  | onceWrap c k ih =>
      intro ctx s
      simp only [runCb, throwsOf]
      exact ih Ctx.custodian (callRemoveListener s (Cb.onceWrap c k))

theorem ctx_beq_false : (Ctx.custodian == Ctx.emitter) = false := by decide

theorem ctx_beq_true : (Ctx.emitter == Ctx.emitter) = true := by decide

/-- Applications of one listener: the listener itself with the incoming
context, then inner applications, all with the custodian context. -/
theorem runCb_calls (beh : Nat → UserBeh) (args : List Nat) :
    ∀ (c : Cb) (ctx : Ctx) (s : Sys),
    (runCb beh args c ctx s).2.1.filter (fun x => x.ctx == Ctx.emitter)
      = if ctx = Ctx.emitter then [Call.mk c ctx args] else [] := by
  intro c
  induction c with
  | user n =>
      intro ctx s
      cases ctx <;> simp [runCb, List.filter, ctx_beq_false, ctx_beq_true]
  | dispatch =>
      intro ctx s
      cases ctx <;> simp [runCb, List.filter, ctx_beq_false, ctx_beq_true]
  | onceWrap c k ih =>
      intro ctx s
      have h := ih Ctx.custodian (callRemoveListener s (Cb.onceWrap c k))
      cases ctx <;> simp_all [runCb, List.filter, ctx_beq_false, ctx_beq_true]

/-- Characterization of the dispatch loop: the applications performed
with the emitter context are exactly the entries of the point in time
copy, in order, each with the full argument list, and the collected
errors are the structural errors of those entries, in order — whatever
the callbacks do to the live list meanwhile. -/
theorem runHandlers_spec (beh : Nat → UserBeh) (args : List Nat) :
    ∀ (l : List Cb) (s : Sys),
    ((runHandlers beh args l s).2.1.filter (fun x => x.ctx == Ctx.emitter)
        = l.map (fun c => Call.mk c Ctx.emitter args))
    ∧ ((runHandlers beh args l s).2.2 = l.filterMap (throwsOf beh)) := by
  intro l
  induction l with
  | nil => exact fun s => ⟨rfl, rfl⟩
  | cons c rest ih =>
      intro s
      have hc := runCb_calls beh args c Ctx.emitter s
      have ht := runCb_throws beh args c Ctx.emitter s
      have hr := ih (runCb beh args c Ctx.emitter s).1
      constructor
      · simp only [runHandlers, List.filter_append, hc, hr.1, List.map_cons]
        simp
      · simp only [runHandlers, ht, hr.2, List.filterMap_cons]
        cases throwsOf beh c <;> simp

/-- With at least one listener on the error channel, every collected
error is emitted and delivered, in order, and nothing is thrown out. -/
theorem emitErrors_of_ne (ls : List ErrL) (h : ls ≠ []) :
    ∀ es : List Nat,
    emitErrors ls es
      = (es, (if ls.contains ErrL.fallback then es else []), none) := by
  intro es
  induction es with
  | nil => simp [emitErrors]
  | cons e rest ih =>
      have hne : ls.isEmpty = false := by
        cases ls with
        | nil => exact absurd rfl h
        | cons a as => rfl
      simp only [emitErrors, hne, Bool.false_eq_true, if_false, ih]
      split_ifs <;> simp_all

/-- The applications performed by a dispatch do not depend on the error
branch. -/
theorem dispatchEmit_calls (beh : Nat → UserBeh) (s : Sys) (args : List Nat) :
    (dispatchEmit beh s args).calls
      = (runHandlers beh args s.handlers s).2.1 := by
  simp only [dispatchEmit]
  split_ifs <;> rfl

/-- The emitter-context applications of a dispatch are exactly the
entries of this.handlers as of dispatch start, in order, each applied
with the full argument list. -/
theorem dispatchEmit_topCalls (beh : Nat → UserBeh) (s : Sys) (args : List Nat) :
    (dispatchEmit beh s args).calls.filter (fun x => x.ctx == Ctx.emitter)
      = s.handlers.map (fun c => Call.mk c Ctx.emitter args) := by
  rw [dispatchEmit_calls]
  exact (runHandlers_spec beh args s.handlers s).1

/-- Emitting collected errors on a channel with at least one listener
never throws out of the loop. -/
theorem emitErrors_thrown_of_ne (ls : List ErrL) (h : ls ≠ []) (es : List Nat) :
    (emitErrors ls es).2.2 = none := by
  rw [emitErrors_of_ne ls h es]

/- Claim theorems. -/

/-- C7: for every dispatch of the managed type, the set and order of
callbacks executed is determined by the point in time copy of
this.handlers taken at dispatch start — whatever subscription calls the
callback behaviors perform while the dispatch runs — and a subsequent
emission runs the mutated list. -/
theorem c7_snapshot_dispatch (beh : Nat → UserBeh) (s : Sys) (args args2 : List Nat) :
    (((dispatchEmit beh s args).calls.filter (fun x => x.ctx == Ctx.emitter)).map Call.cb
        = s.handlers)
    ∧ (((dispatchEmit beh (dispatchEmit beh s args).sys args2).calls.filter
          (fun x => x.ctx == Ctx.emitter)).map Call.cb
        = (dispatchEmit beh s args).sys.handlers) := by
  constructor
  · rw [dispatchEmit_topCalls]; simp [Function.comp_def]
  · rw [dispatchEmit_topCalls]; simp [Function.comp_def]

/-- C1, amended: a dispatch applies every managed entry, in list order,
with the emitter as context and the full argument list — failures of
earlier entries notwithstanding — unconditionally; and provided at least
one listener is registered on the error channel, the error channel
receives exactly one error emission per failing callback, in callback
order, with nothing thrown out of the dispatch. The per-failure emission
part of the unamended claim fails when the error channel has no
listener: see the counterexample. -/
theorem c1_dispatch_isolation_amended (beh : Nat → UserBeh) (s : Sys)
    (args : List Nat) :
    ((dispatchEmit beh s args).calls.filter (fun x => x.ctx == Ctx.emitter)
        = s.handlers.map (fun c => Call.mk c Ctx.emitter args))
    ∧ (s.errListeners ≠ [] →
        (dispatchEmit beh s args).delivered = s.handlers.filterMap (throwsOf beh)
        ∧ (dispatchEmit beh s args).thrown = none) := by
  refine ⟨dispatchEmit_topCalls beh s args, fun h => ?_⟩
  have hf := runHandlers_fields beh args s.handlers s
  have hs := (runHandlers_spec beh args s.handlers s).2
  by_cases hE : (runHandlers beh args s.handlers s).2.2.isEmpty
  · have hnil : (runHandlers beh args s.handlers s).2.2 = [] := by
      simpa using hE
    constructor
    · simp only [dispatchEmit, hE, if_true]
      rw [← hs, hnil]
    · simp only [dispatchEmit, hE, if_true]
  · have hEf : (runHandlers beh args s.handlers s).2.2.isEmpty = false := by
      simpa using hE
    have hsl : s.errListeners.isEmpty = false := by
      cases hc : s.errListeners with
      | nil => exact absurd hc h
      | cons a as => rfl
    simp only [dispatchEmit, hEf, Bool.false_eq_true, if_false, hf.1, hsl,
      Bool.and_false, emitErrors_of_ne s.errListeners h]
    exact ⟨hs, trivial⟩

/-- Concrete dispatch with an unlistened error channel on a plain
emitter: a mounted custodian, two managed callbacks, both throwing, no
listener registered on the error channel. -/
def cexSys1 : Sys :=
  { native := fun _ => [], isProcess := false, type := "event",
    handlers := [Cb.user 0, Cb.user 1], mounted := true, overridden := true,
    errListeners := [], fresh := 0 }

/-- Behavior for the concrete dispatch above: callback n throws n. -/
def cexBeh1 : Nat → UserBeh := fun n => UserBeh.mk [] (some n)

/-- C1 counterexample: with two failing callbacks and no listener on the
error channel, both callbacks are still applied in order with the emitter
context, yet the channel receives zero error emissions — not one per
failing callback — because the first events.emit throws out of the
dispatch and aborts the remaining emissions. -/
theorem c1_counterexample :
    cexSys1.handlers.filterMap (throwsOf cexBeh1) = [0, 1]
    ∧ (dispatchEmit cexBeh1 cexSys1 []).calls.filter (fun x => x.ctx == Ctx.emitter)
        = cexSys1.handlers.map (fun c => Call.mk c Ctx.emitter [])
    ∧ (dispatchEmit cexBeh1 cexSys1 []).delivered = []
    ∧ (dispatchEmit cexBeh1 cexSys1 []).thrown = some 0 := by decide

/-- Concrete witness state for C1: three managed callbacks, the middle
one throwing, one listener on the error channel. -/
def wSys1 : Sys :=
  { native := fun _ => [], isProcess := false, type := "event",
    handlers := [Cb.user 0, Cb.user 1, Cb.user 2], mounted := true,
    overridden := true, errListeners := [ErrL.user 0], fresh := 0 }

/-- Witness behavior for C1: callback 1 throws error 11. -/
def wBeh1 : Nat → UserBeh := fun n => UserBeh.mk [] (if n = 1 then some 11 else none)

theorem c1_dispatch_isolation_witness :
    wSys1.errListeners ≠ [] ∧
    (((dispatchEmit wBeh1 wSys1 [7]).calls.filter (fun x => x.ctx == Ctx.emitter)
        = wSys1.handlers.map (fun c => Call.mk c Ctx.emitter [7]))
      ∧ (dispatchEmit wBeh1 wSys1 [7]).delivered
          = wSys1.handlers.filterMap (throwsOf wBeh1)
      ∧ (dispatchEmit wBeh1 wSys1 [7]).thrown = none) :=
  ⟨by decide,
    (c1_dispatch_isolation_amended wBeh1 wSys1 [7]).1,
    ((c1_dispatch_isolation_amended wBeh1 wSys1 [7]).2 (by decide)).1,
    ((c1_dispatch_isolation_amended wBeh1 wSys1 [7]).2 (by decide)).2⟩

/-- C2, amended: a dispatch of the managed type returns normally — no
failure of a managed callback is re-thrown into the emit call stack —
provided a listener is registered on the error channel, or the emitter is
process and the managed type matches the unhandledRejection pattern (so
the console fallback is installed). The unamended claim, which asserts
this regardless of the error channel listeners, fails: see the
counterexample, and the test of spec.js lines 215 to 227, which expects
the emit call to throw in exactly that situation. -/
theorem c2_no_rethrow_amended (beh : Nat → UserBeh) (s : Sys) (args : List Nat)
    (h : s.errListeners ≠ []
        ∨ (s.isProcess = true ∧ testUnhandledRejection s.type = true)) :
    (dispatchEmit beh s args).thrown = none := by
  have hf := runHandlers_fields beh args s.handlers s
  by_cases hE : (runHandlers beh args s.handlers s).2.2.isEmpty
  · simp only [dispatchEmit, hE, if_true]
  · have hEf : (runHandlers beh args s.handlers s).2.2.isEmpty = false := by
      simpa using hE
    by_cases hl : s.errListeners = []
    · rcases h with h | h
      · exact absurd hl h
      · simp only [dispatchEmit, hEf, Bool.false_eq_true, if_false,
          hf.1, hf.2.1, hf.2.2.1, hl, h.1, h.2, List.isEmpty_nil,
          Bool.and_true, Bool.true_and, Bool.and_self, if_true, List.nil_append]
        exact emitErrors_thrown_of_ne [ErrL.fallback] (by simp) _
    · have hsl : s.errListeners.isEmpty = false := by
        cases hc : s.errListeners with
        | nil => exact absurd hc hl
        | cons a as => rfl
      simp only [dispatchEmit, hEf, Bool.false_eq_true, if_false, hf.1, hsl,
        Bool.and_false]
      exact emitErrors_thrown_of_ne s.errListeners hl _

/-- Concrete dispatch for the C2 counterexample: one throwing managed
callback, plain emitter, nothing listening on the error channel. -/
def cexSys2 : Sys :=
  { native := fun _ => [], isProcess := false, type := "event",
    handlers := [Cb.user 0], mounted := true, overridden := true,
    errListeners := [], fresh := 0 }

/-- Behavior for the C2 counterexample: the callback throws error 7. -/
def cexBeh2 : Nat → UserBeh := fun _ => UserBeh.mk [] (some 7)

/-- C2 counterexample: with no listener on the error channel and a plain
emitter, the failure is thrown out of the dispatch, so the emit call does
not return normally. -/
theorem c2_counterexample :
    (dispatchEmit cexBeh2 cexSys2 []).thrown = some 7
    ∧ (dispatchEmit cexBeh2 cexSys2 []).thrown ≠ none := by decide

/-- Concrete witness state for C2: process emitter managing an
unhandledRejection type, one throwing callback, no error listener — the
fallback condition applies. -/
def wSys2 : Sys :=
  { native := fun _ => [], isProcess := true, type := "unhandledRejection",
    handlers := [Cb.user 0], mounted := true, overridden := true,
    errListeners := [], fresh := 0 }

/-- Witness behavior for C2: the callback throws error 3. -/
def wBeh2 : Nat → UserBeh := fun _ => UserBeh.mk [] (some 3)

theorem c2_no_rethrow_witness :
    (wSys2.errListeners ≠ []
        ∨ (wSys2.isProcess = true ∧ testUnhandledRejection wSys2.type = true))
    ∧ (dispatchEmit wBeh2 wSys2 []).thrown = none :=
  ⟨Or.inr (by decide), c2_no_rethrow_amended wBeh2 wSys2 [] (Or.inr (by decide))⟩

/-- C8: during a dispatch in which at least one managed callback fails,
the console fallback is installed on the error channel exactly when the
emitter is the process object, the managed type matches the
unhandledRejection pattern, and zero listeners are registered on the
error channel at that moment; under those three conditions every failing
callback error is printed by the fallback and nothing is thrown out of
the dispatch. -/
theorem c8_fallback_iff (beh : Nat → UserBeh) (s : Sys) (args : List Nat)
    (hfb : ErrL.fallback ∉ s.errListeners)
    (hfail : s.handlers.filterMap (throwsOf beh) ≠ []) :
    ((ErrL.fallback ∈ (dispatchEmit beh s args).sys.errListeners)
        ↔ (s.isProcess = true ∧ testUnhandledRejection s.type = true
            ∧ s.errListeners = []))
    ∧ (s.isProcess = true → testUnhandledRejection s.type = true →
        s.errListeners = [] →
        (dispatchEmit beh s args).printed = s.handlers.filterMap (throwsOf beh)
        ∧ (dispatchEmit beh s args).thrown = none) := by
  have hf := runHandlers_fields beh args s.handlers s
  have hs := (runHandlers_spec beh args s.handlers s).2
  have hEf : (runHandlers beh args s.handlers s).2.2.isEmpty = false := by
    rw [hs]
    cases hc : s.handlers.filterMap (throwsOf beh) with
    | nil => exact absurd hc hfail
    | cons a as => rfl
  by_cases hP : s.isProcess = true ∧ testUnhandledRejection s.type = true
      ∧ s.errListeners = []
  · obtain ⟨h1, h2, h3⟩ := hP
    simp only [dispatchEmit, hEf, Bool.false_eq_true, if_false,
      hf.1, hf.2.1, hf.2.2.1, h1, h2, h3, List.isEmpty_nil, Bool.and_self,
      Bool.and_true, Bool.true_and, if_true, List.nil_append]
    constructor
    · exact iff_of_true (by simp) (by simp)
    · intro _ _ _
      rw [emitErrors_of_ne [ErrL.fallback] (by simp)]
      constructor
      · simp [hs]
      · rfl
  · have hcondS : (s.isProcess && testUnhandledRejection s.type
        && s.errListeners.isEmpty) = false := by
      cases hip : s.isProcess with
      | false => simp
      | true =>
        cases htu : testUnhandledRejection s.type with
        | false => simp
        | true =>
          cases hel : s.errListeners with
          | nil => exact absurd ⟨hip, htu, hel⟩ hP
          | cons a as => simp
    simp only [dispatchEmit, hEf, Bool.false_eq_true, if_false, hf.1, hf.2.1,
      hf.2.2.1, hcondS]
    constructor
    · exact iff_of_false hfb (fun hc => absurd hc hP)
    · intro h1 h2 h3
      exact absurd ⟨h1, h2, h3⟩ hP

/-- Concrete witness state for C8: process emitter, unhandledRejection
type, one throwing callback, empty error channel. -/
def wSys8 : Sys :=
  { native := fun _ => [], isProcess := true, type := "unhandledRejection",
    handlers := [Cb.user 0], mounted := true, overridden := true,
    errListeners := [], fresh := 0 }

/-- Witness behavior for C8: the callback throws error 5. -/
def wBeh8 : Nat → UserBeh := fun _ => UserBeh.mk [] (some 5)

theorem c8_fallback_iff_witness :
    (ErrL.fallback ∉ wSys8.errListeners
      ∧ wSys8.handlers.filterMap (throwsOf wBeh8) ≠ [])
    ∧ (((ErrL.fallback ∈ (dispatchEmit wBeh8 wSys8 []).sys.errListeners)
        ↔ (wSys8.isProcess = true ∧ testUnhandledRejection wSys8.type = true
            ∧ wSys8.errListeners = []))
      ∧ (wSys8.isProcess = true → testUnhandledRejection wSys8.type = true →
          wSys8.errListeners = [] →
          (dispatchEmit wBeh8 wSys8 []).printed
              = wSys8.handlers.filterMap (throwsOf wBeh8)
          ∧ (dispatchEmit wBeh8 wSys8 []).thrown = none)) :=
  ⟨⟨by decide, by decide⟩, c8_fallback_iff wBeh8 wSys8 [] (by decide) (by decide)⟩

/-- While the override wrappers are installed, any sequence of
subscription calls targeting the managed type leaves every native
listener list unchanged and the wrappers in place. -/
theorem foldl_applyOp_native (ops : List Op) : ∀ t : Sys, t.overridden = true →
    ((ops.foldl applyOp t).native = t.native
      ∧ (ops.foldl applyOp t).overridden = true) := by
  induction ops with
  | nil => exact fun t h => ⟨rfl, h⟩
  | cons op rest ih =>
      intro t h
      have h1 := applyOp_native_of_overridden t op h
      have h2 := (applyOp_fields t op).2.2.2
      have h3 := ih (applyOp t op) (h2.trans h)
      exact ⟨h3.1.trans h1, h3.2⟩

/-- What mount does to a not yet mounted custodian whose emitter still
has its native methods: this.handlers captures the native list of the
managed type, the save-set exists, the wrappers are installed, and the
native list of the managed type holds exactly the dispatch handler,
every other list untouched. -/
theorem mount_spec (s : Sys) (hm : s.mounted = false) (ho : s.overridden = false) :
    (mount s).handlers = s.native s.type
    ∧ (mount s).mounted = true
    ∧ (mount s).overridden = true
    ∧ (mount s).type = s.type
    ∧ ∀ u, (mount s).native u = if u = s.type then [Cb.dispatch] else s.native u := by
  refine ⟨?_, ?_, ?_, ?_, ?_⟩
  · simp [mount, hm, ho, callRemoveAll, callOn, nativeRemoveAll, nativeAdd]
  · simp [mount, hm, ho, callRemoveAll, callOn, nativeRemoveAll, nativeAdd]
  · simp [mount, hm, ho, callRemoveAll, callOn, nativeRemoveAll, nativeAdd]
  · simp [mount, hm, ho, callRemoveAll, callOn, nativeRemoveAll, nativeAdd]
  · intro u
    by_cases hu : u = s.type <;>
      simp [mount, hm, ho, callRemoveAll, callOn, nativeRemoveAll, nativeAdd, hu]

/-- C3: immediately after mount the emitter holds exactly one native
listener for the managed type — the dispatch handler — and every sequence
of calls through the replaced subscription methods targeting the managed
type preserves that. -/
theorem c3_single_native_listener (s : Sys) (ops : List Op)
    (hm : s.mounted = false) (ho : s.overridden = false) :
    (mount s).native s.type = [Cb.dispatch]
    ∧ (ops.foldl applyOp (mount s)).native s.type = [Cb.dispatch] := by
  obtain ⟨-, -, mo, -, mn⟩ := mount_spec s hm ho
  have hmt : (mount s).native s.type = [Cb.dispatch] := by
    rw [mn s.type, if_pos rfl]
  exact ⟨hmt, by rw [(foldl_applyOp_native ops (mount s) mo).1, hmt]⟩

/-- Witness emitter for C3: two listeners on the managed type. -/
def wNative3 : String → List Cb :=
  fun t => if t = "event" then [Cb.user 0, Cb.user 1] else []

/-- Witness custodian for C3. -/
def wSys3 : Sys := construct wNative3 false "event"

/-- Witness call sequence for C3, covering every replaced method. -/
def wOps3 : List Op :=
  [Op.on (Cb.user 2) true, Op.prependOnceListener (Cb.user 3),
   Op.prependListener (Cb.user 4) false, Op.once (Cb.user 5),
   Op.removeListener (Cb.user 0), Op.removeAllListeners,
   Op.addListener (Cb.user 6) false, Op.off (Cb.user 9),
   Op.prependListener (Cb.user 8) true]

theorem c3_single_native_listener_witness :
    (wSys3.mounted = false ∧ wSys3.overridden = false)
    ∧ ((mount wSys3).native wSys3.type = [Cb.dispatch]
      ∧ (wOps3.foldl applyOp (mount wSys3)).native wSys3.type = [Cb.dispatch]) :=
  ⟨⟨rfl, rfl⟩, c3_single_native_listener wSys3 wOps3 rfl rfl⟩

/-- Re-registering a list of callbacks through the restored native on
appends them, in order, to the native list of the managed type, touching
no other list, no flag and no type. -/
theorem foldl_callOn_native (l : List Cb) : ∀ t : Sys, t.overridden = false →
    ((∀ u, (l.foldl (fun acc c => callOn acc c false) t).native u
        = if u = t.type then t.native u ++ l else t.native u)
      ∧ (l.foldl (fun acc c => callOn acc c false) t).overridden = false
      ∧ (l.foldl (fun acc c => callOn acc c false) t).mounted = t.mounted) := by
  induction l with
  | nil =>
      intro t h
      refine ⟨?_, h, rfl⟩
      intro u
      by_cases hu : u = t.type <;> simp [hu]
  | cons c rest ih =>
      intro t h
      have hstep : callOn t c false = nativeAdd t t.type c := by
        simp [callOn, h]
      have h3 := ih (nativeAdd t t.type c) h
      constructor
      · intro u
        rw [List.foldl_cons, hstep, h3.1 u]
        by_cases hu : u = t.type
        · simp [nativeAdd, hu]
        · simp [nativeAdd, hu]
      · rw [List.foldl_cons, hstep]
        exact ⟨h3.2.1, h3.2.2⟩

/-- What unmount does to a mounted custodian: the native methods are back
in place, the save-set is gone, the dispatch handler is removed from the
native list of the managed type, and every callback of this.handlers is
appended there, in order. -/
theorem unmount_spec (m : Sys) (hm : m.mounted = true) :
    (∀ u, (unmount m).native u
        = if u = m.type
          then removeLastOccurrence (m.native u) Cb.dispatch ++ m.handlers
          else m.native u)
    ∧ (unmount m).overridden = false
    ∧ (unmount m).mounted = false := by
  have hs2 : callRemoveListener { m with overridden := false, mounted := false }
        Cb.dispatch
      = nativeRemoveListener { m with overridden := false, mounted := false }
        m.type Cb.dispatch := by
    simp [callRemoveListener]
  have h2o : (nativeRemoveListener { m with overridden := false, mounted := false }
      m.type Cb.dispatch).overridden = false := rfl
  have hfold := foldl_callOn_native
      (nativeRemoveListener { m with overridden := false, mounted := false }
        m.type Cb.dispatch).handlers
      (nativeRemoveListener { m with overridden := false, mounted := false }
        m.type Cb.dispatch) h2o
  have hun : unmount m
      = (nativeRemoveListener { m with overridden := false, mounted := false }
          m.type Cb.dispatch).handlers.foldl (fun acc c => callOn acc c false)
          (nativeRemoveListener { m with overridden := false, mounted := false }
            m.type Cb.dispatch) := by
    simp only [unmount, hm, eq_self_iff_true, if_true, hs2]
  rw [hun]
  refine ⟨?_, hfold.2.1, hfold.2.2⟩
  intro u
  rw [hfold.1 u]
  by_cases hu : u = m.type
  · rw [if_pos, if_pos]
    · simp [nativeRemoveListener, hu]
    · exact hu
    · exact hu
  · rw [if_neg, if_neg]
    · simp [nativeRemoveListener, hu]
    · exact hu
    · exact hu

/-- C9: mounting a not yet mounted custodian and unmounting it with no
subscription mutation in between restores the native listener list of
every event type — count and relative order included — to its pre mount
value, with the native methods back in place and the save-set gone. -/
theorem c9_unmount_restores (s : Sys) (hm : s.mounted = false)
    (ho : s.overridden = false) :
    (∀ t, (unmount (mount s)).native t = s.native t)
    ∧ (unmount (mount s)).overridden = false
    ∧ (unmount (mount s)).mounted = false := by
  obtain ⟨mh, mm, mo, mt, mn⟩ := mount_spec s hm ho
  obtain ⟨un, uo, um⟩ := unmount_spec (mount s) mm
  refine ⟨?_, uo, um⟩
  intro t
  rw [un t, mt, mh]
  by_cases ht : t = s.type
  · rw [if_pos ht, mn t, if_pos ht]
    simp [removeLastOccurrence, ht]
  · rw [if_neg ht, mn t, if_neg ht]

/-- Witness emitter for C9: two listeners on the managed type, one on an
unrelated type. -/
def wNative9 : String → List Cb :=
  fun t => if t = "event" then [Cb.user 0, Cb.user 1] else [Cb.user 7]

/-- Witness custodian for C9. -/
def wSys9 : Sys := construct wNative9 false "event"

theorem c9_unmount_restores_witness :
    (wSys9.mounted = false ∧ wSys9.overridden = false)
    ∧ ((∀ t, (unmount (mount wSys9)).native t = wSys9.native t)
      ∧ (unmount (mount wSys9)).overridden = false
      ∧ (unmount (mount wSys9)).mounted = false) :=
  ⟨⟨rfl, rfl⟩, c9_unmount_restores wSys9 rfl rfl⟩

/-- C5, amended: while mounted, the one-shot paths route through the
custodian overrides and land self-removing wrappers in the managed list:
on with a truthy once option appends a wrapper at the tail of
this.handlers through the overridden once, and prependOnceListener puts a
wrapper at the head of this.handlers through the overridden
prependListener; no native listener list changes. The unamended claim —
native one-shot mechanism, managed list never modified — fails: see the
counterexample. -/
theorem c5_once_managed_amended (s : Sys) (c : Cb) (h : s.overridden = true) :
    (applyOp s (Op.on c true)).handlers = s.handlers ++ [Cb.onceWrap c s.fresh]
    ∧ (applyOp s (Op.prependOnceListener c)).handlers
        = Cb.onceWrap c s.fresh :: s.handlers
    ∧ (applyOp s (Op.on c true)).native = s.native
    ∧ (applyOp s (Op.prependOnceListener c)).native = s.native := by
  refine ⟨?_, ?_, applyOp_native_of_overridden s _ h,
    applyOp_native_of_overridden s _ h⟩
  · simp [applyOp, callOn, implOn, callOnce, implOnce, h]
  · simp [applyOp, callPrependOnce, implPrependOnce, callPrependListener2, h]

/-- Concrete mounted state for the C5 counterexample and code-bug
demonstrations: one managed callback, dispatch as the sole native
listener. -/
def cexSys5 : Sys :=
  { native := fun t => if t = "event" then [Cb.dispatch] else [],
    isProcess := false, type := "event", handlers := [Cb.user 0],
    mounted := true, overridden := true, errListeners := [], fresh := 0 }

/-- C5 counterexample: while mounted, prependOnceListener for the managed
type does modify the managed list (a self-removing wrapper lands at its
head), on with the once option modifies the managed list too (a wrapper
lands at its tail), and neither adds any native listener. -/
theorem c5_counterexample :
    (applyOp cexSys5 (Op.prependOnceListener (Cb.user 1))).handlers
        ≠ cexSys5.handlers
    ∧ (applyOp cexSys5 (Op.prependOnceListener (Cb.user 1))).handlers
        = [Cb.onceWrap (Cb.user 1) 0, Cb.user 0]
    ∧ (applyOp cexSys5 (Op.on (Cb.user 2) true)).handlers
        = [Cb.user 0, Cb.onceWrap (Cb.user 2) 0]
    ∧ (applyOp cexSys5 (Op.prependOnceListener (Cb.user 1))).native "event"
        = [Cb.dispatch] := by decide

/-- Witness mounted state for the amended C5. -/
def wSys5 : Sys :=
  { native := fun _ => [Cb.dispatch], isProcess := false, type := "event",
    handlers := [Cb.user 1, Cb.user 2], mounted := true, overridden := true,
    errListeners := [], fresh := 3 }

theorem c5_once_managed_witness :
    wSys5.overridden = true
    ∧ ((applyOp wSys5 (Op.on (Cb.user 9) true)).handlers
          = wSys5.handlers ++ [Cb.onceWrap (Cb.user 9) wSys5.fresh]
      ∧ (applyOp wSys5 (Op.prependOnceListener (Cb.user 9))).handlers
          = Cb.onceWrap (Cb.user 9) wSys5.fresh :: wSys5.handlers
      ∧ (applyOp wSys5 (Op.on (Cb.user 9) true)).native = wSys5.native
      ∧ (applyOp wSys5 (Op.prependOnceListener (Cb.user 9))).native = wSys5.native) :=
  ⟨rfl, c5_once_managed_amended wSys5 (Cb.user 9) rfl⟩

/-- Concrete mounted state for the C6 code bug: one managed callback. -/
def bugSys6 : Sys :=
  { native := fun t => if t = "event" then [Cb.dispatch] else [],
    isProcess := false, type := "event", handlers := [Cb.user 0],
    mounted := true, overridden := true, errListeners := [], fresh := 0 }

/-- C6, code bug: removeListener (and off) for the managed type with a
callback absent from the managed list is not a no-op. indexOf yields
minus one and splice(-1, 1) removes the last element of the managed
list, so the list [user 0] becomes empty. -/
theorem c6_remove_absent_bug :
    Cb.user 1 ∉ bugSys6.handlers
    ∧ bugSys6.handlers = [Cb.user 0]
    ∧ (applyOp bugSys6 (Op.removeListener (Cb.user 1))).handlers = []
    ∧ (applyOp bugSys6 (Op.off (Cb.user 1))).handlers = [] := by decide

/-- C4, code bug: the delegation branch of the override wrapper does not
pass the caller arguments unchanged to the saved native method: it
prepends the managed type, so a call for another event type reaches the
native method with the managed type first and the caller type string in
the listener position. -/
theorem c4_delegation_bug :
    overrideWrapperRoute "event" [JsVal.str "other", JsVal.fn (Cb.user 0)]
      = Routed.toNative [JsVal.str "event", JsVal.str "other", JsVal.fn (Cb.user 0)]
    ∧ overrideWrapperRoute "event" [JsVal.str "other", JsVal.fn (Cb.user 0)]
      ≠ Routed.toNative [JsVal.str "other", JsVal.fn (Cb.user 0)]
    ∧ delegatedNativeArgs "event" [JsVal.str "other", JsVal.fn (Cb.user 0)]
      ≠ [JsVal.str "other", JsVal.fn (Cb.user 0)]
    ∧ overrideWrapperRoute "event" [JsVal.str "event", JsVal.fn (Cb.user 0)]
      = Routed.toImpl [JsVal.str "event", JsVal.fn (Cb.user 0)] := by decide

/-- C10: construction leaves the emitter untouched: every native listener
list is unchanged, no method is replaced and nothing is mounted, so every
subscription call on the fresh custodian still runs the native
implementation of the emitter. -/
theorem c10_construct_frame (native0 : String → List Cb) (isP : Bool) (ty : String) :
    (∀ t, (construct native0 isP ty).native t = native0 t)
    ∧ (construct native0 isP ty).overridden = false
    ∧ (construct native0 isP ty).mounted = false
    ∧ (∀ c o, applyOp (construct native0 isP ty) (Op.on c o)
        = nativeAdd (construct native0 isP ty) ty c)
    ∧ (∀ c o, applyOp (construct native0 isP ty) (Op.prependListener c o)
        = nativePrepend (construct native0 isP ty) ty c)
    ∧ (∀ c, applyOp (construct native0 isP ty) (Op.removeListener c)
        = nativeRemoveListener (construct native0 isP ty) ty c)
    ∧ applyOp (construct native0 isP ty) Op.removeAllListeners
        = nativeRemoveAll (construct native0 isP ty) ty :=
  ⟨fun _ => rfl, rfl, rfl, fun _ _ => rfl, fun _ _ => rfl, fun _ => rfl, rfl⟩

end EventCustodian
